import Mathlib

/-!
Verification of the resilient generation client of the
HackSprint2025 `hacksprint-ps5-backend` repository.

The embedding models the two invocation paths of the repository:

* `generateWithVertexAI` (recommendation path, `src/unnamed/part_000`)
  together with its response extractor `extractAiText`;
* `callGeminiAPI` and the `chat` handler
  (`src/controller/chatController/chatController.js`) with its inline
  extraction expression `chatExtract`.

JavaScript values are modelled by the inductive type `JsValue`; optional
chaining (`?.`), bracket indexing, `Array.isArray`, truthiness and the
`||` operator are modelled by total Lean functions mirroring the
JavaScript semantics the code relies on.  Network effects (the identity
provider round trip and the per-candidate HTTP POST) are modelled by
explicit parameters, and every outbound interaction is recorded in an
event trace so that claims about the number and order of calls can be
stated.
-/

set_option autoImplicit false

namespace PS5

/-- A JavaScript (JSON-ish) runtime value.  Objects are ordered field
lists (first binding wins on lookup, as in a literal without duplicate
keys); `undefined` and `null` are distinct, as in JavaScript. -/
inductive JsValue where
  | null
  | undefined
  | bool (b : Bool)
  | num (n : Int)
  | str (s : String)
  | arr (elems : List JsValue)
  | obj (fields : List (String × JsValue))

/-- Field lookup in an object's field list; missing keys give `undefined`. -/
def findField : List (String × JsValue) → String → JsValue
  | [], _ => JsValue.undefined
  | (k, v) :: rest, key => if k = key then v else findField rest key

/-- `v?.key`: optional-chained member access.  On `null`/`undefined` the
optional chain short-circuits to `undefined`; member access on a
primitive yields `undefined` (no own properties are relevant here)
except the `length` property of strings and arrays. -/
def jsOptField (v : JsValue) (key : String) : JsValue :=
  match v with
  | JsValue.obj fs => findField fs key
  | JsValue.str s => if key = "length" then JsValue.num (Int.ofNat s.length) else JsValue.undefined
  | JsValue.arr xs => if key = "length" then JsValue.num (Int.ofNat xs.length) else JsValue.undefined
  | _ => JsValue.undefined

/-- `xs[i]` on a JavaScript array: out-of-range indices give `undefined`. -/
def jsIndex (xs : List JsValue) (i : Nat) : JsValue :=
  xs.getD i JsValue.undefined

/-- `v?.[i]`: optional-chained bracket indexing.  Arrays index their
elements, objects look up the stringified key, strings yield
one-character strings, everything else gives `undefined`. -/
def jsOptIndex (v : JsValue) (i : Nat) : JsValue :=
  match v with
  | JsValue.arr xs => jsIndex xs i
  | JsValue.obj fs => findField fs (toString i)
  | JsValue.str s =>
      if i < s.length then JsValue.str (String.singleton (s.toList.getD i ' '))
      else JsValue.undefined
  | _ => JsValue.undefined

/-- JavaScript truthiness (`NaN` is not representable in this model). -/
def jsTruthy : JsValue → Bool
  | JsValue.null => false
  | JsValue.undefined => false
  | JsValue.bool b => b
  | JsValue.num n => n != 0
  | JsValue.str s => s != ""
  | JsValue.arr _ => true
  | JsValue.obj _ => true

/-- `a || b`: returns `a` when truthy, otherwise `b`. -/
def jsOr (a b : JsValue) : JsValue :=
  if jsTruthy a then a else b

/-- `Array.isArray`. -/
def jsIsArray : JsValue → Bool
  | JsValue.arr _ => true
  | _ => false

/-- The element list of an array value (callers guard with `jsIsArray`). -/
def jsArrayElems : JsValue → List JsValue
  | JsValue.arr xs => xs
  | _ => []

/-- The Response Extractor of the recommendation path
(`extractAiText` in `src/unnamed/part_000`):

```js
const candidates = response?.candidates;
if (Array.isArray(candidates) && candidates.length > 0) {
  const parts = candidates[0]?.content?.parts;
  if (Array.isArray(parts) && parts.length > 0) {
    return parts[0]?.text || null;
  }
}
return null;
```

The function is total (the source's `try`/`catch` can never fire: every
access is optional-chained or guarded), hence it never raises. -/
def extractAiText (response : JsValue) : JsValue :=
  match jsOptField response "candidates" with
  | JsValue.arr cs =>
      if 0 < cs.length then
        match jsOptField (jsOptField (jsIndex cs 0) "content") "parts" with
        | JsValue.arr ps =>
            if 0 < ps.length then jsOr (jsOptField (jsIndex ps 0) "text") JsValue.null
            else JsValue.null
        | _ => JsValue.null
      else JsValue.null
  | _ => JsValue.null

/-- The inline extraction expression of the chat path
(`chatController.js`, line 64):
`response.data?.candidates?.[0]?.content?.parts?.[0]?.text || null`. -/
def chatExtract (data : JsValue) : JsValue :=
  let v1 := jsOptField data "candidates"
  let v2 := jsOptIndex v1 0
  let v3 := jsOptField v2 "content"
  let v4 := jsOptField v3 "parts"
  let v5 := jsOptIndex v4 0
  let v6 := jsOptField v5 "text"
  jsOr v6 JsValue.null

/-- The failure information carried by a rejected HTTP promise (an
axios error): the HTTP status of the response, if any, and the error
message. -/
structure ErrInfo where
  status : Option Nat
  message : String
  deriving DecidableEq

/-- A value thrown by the generation client: either a freshly
constructed `Error` with a message, or a rethrown HTTP error. -/
inductive ThrownError where
  | errMsg (msg : String)
  | axiosErr (e : ErrInfo)
  deriving DecidableEq

/-- Outcome of one outbound HTTP POST: axios resolves only on a 2xx
status (`ok` with the decoded response body) and rejects otherwise. -/
inductive HttpResult where
  | fail (e : ErrInfo)
  | ok (data : JsValue)

/-- The network environment: the outcome of a POST as a function of the
bearer token, the model name and the JSON request body. -/
abbrev HttpFun := String → String → JsValue → HttpResult

/-- Observable side effects of one invocation: the credential fetch and
each outbound model call (with the token and body it was issued with). -/
inductive Event where
  | fetchToken
  | httpCall (token : String) (model : String) (body : JsValue)

/-- Discriminator for outbound model calls in a trace. -/
def isHttpCallEvent : Event → Bool
  | Event.httpCall _ _ _ => true
  | Event.fetchToken => false

/-- Discriminator for credential fetches in a trace. -/
def isFetchEvent : Event → Bool
  | Event.fetchToken => true
  | Event.httpCall _ _ _ => false

/-- Whether an outbound call used the bearer token `t`. -/
def eventUsesToken (t : String) : Event → Bool
  | Event.httpCall tk _ _ => tk == t
  | Event.fetchToken => false

/-- `getAccessToken` (identical in both files): requests a token from
the identity provider; a provider failure with message `m` is rethrown
as `Error("Authentication failed: " + m)`.  The provider's outcome is
the `authResult` parameter. -/
def getAccessToken (authResult : Except String String) : Except String String :=
  match authResult with
  | Except.ok t => Except.ok t
  | Except.error m => Except.error ("Authentication failed: " ++ m)

/-- The candidate model list of the recommendation path. -/
def modelNames : List String :=
  ["gemini-2.5-pro", "gemini-2.5-flash", "gemini-1.5-flash", "gemini-1.5-pro"]

/-- The candidate model list of the chat path. -/
def chatModelNames : List String :=
  ["gemini-2.0-flash-exp", "gemini-1.5-flash", "gemini-1.5-pro"]

/-- The request body built by `generateWithVertexAI`: a one-element
conversation with role `"user"` holding the prompt. -/
def mkRecRequestBody (prompt : String) : JsValue :=
  JsValue.obj [("contents", JsValue.arr
    [JsValue.obj [("role", JsValue.str "user"),
                  ("parts", JsValue.arr [JsValue.obj [("text", JsValue.str prompt)]])]])]

/-- The fixed system instruction of the chat path. -/
def systemInstructionText : String :=
  "You are a helpful healthcare assistant. Provide clear, accurate, and empathetic responses to health-related questions. Keep responses concise and easy to understand. If a question is outside your medical knowledge, suggest consulting a healthcare professional."

/-- The request body built by `callGeminiAPI` for a conversation. -/
def mkChatRequestBody (conversationHistory : List JsValue) : JsValue :=
  JsValue.obj [("contents", JsValue.arr conversationHistory),
               ("systemInstruction", JsValue.obj
                 [("parts", JsValue.arr
                   [JsValue.obj [("text", JsValue.str systemInstructionText)]])])]

/-- The error thrown after the candidate loop exhausts the list:
`throw lastError || new Error(defaultMsg)`. -/
def exhaustedError (defaultMsg : String) : Option ErrInfo → ThrownError
  | some e => ThrownError.axiosErr e
  | none => ThrownError.errMsg defaultMsg

/-- The candidate loop of `generateWithVertexAI` (`src/unnamed/part_000`,
lines 78-120).  The accumulator is the mutable `lastError` variable.  A
2xx response returns `response.data` immediately (no content check); a
rejected promise records the error and continues.  The second component
is the trace of outbound calls, in order. -/
def vertexLoop (http : HttpFun) (t : String) (b : JsValue) :
    List String → Option ErrInfo → Except ThrownError JsValue × List Event
  | [], acc => (Except.error (exhaustedError "All Vertex AI models failed" acc), [])
  | m :: ms, acc =>
      match http t m b with
      | HttpResult.ok data => (Except.ok data, [Event.httpCall t m b])
      | HttpResult.fail e =>
          let r := vertexLoop http t b ms (some e)
          (r.1, Event.httpCall t m b :: r.2)

/-- `generateWithVertexAI` (`src/unnamed/part_000`, lines 62-121):
acquires one token, then runs the candidate loop; a token failure is
rewrapped and aborts before any outbound call.  The candidate list is a
parameter (the deployed configuration is `modelNames`). -/
def generateWithVertexAI (authResult : Except String String) (http : HttpFun)
    (models : List String) (prompt : String) :
    Except ThrownError JsValue × List Event :=
  match getAccessToken authResult with
  | Except.error msg =>
      (Except.error (ThrownError.errMsg ("Failed to authenticate with Google Cloud: " ++ msg)),
       [Event.fetchToken])
  | Except.ok accessToken =>
      let r := vertexLoop http accessToken (mkRecRequestBody prompt) models none
      (r.1, Event.fetchToken :: r.2)

/-- The candidate loop of `callGeminiAPI` (`chatController.js`, lines
40-73).  A 2xx response is accepted only when the inline extraction is
truthy; otherwise the loop continues — note that the absent-content
branch leaves `lastError` (the accumulator) unchanged, since only the
`catch` block assigns it. -/
def geminiLoop (http : HttpFun) (t : String) (b : JsValue) :
    List String → Option ErrInfo → Except ThrownError JsValue × List Event
  | [], acc => (Except.error (exhaustedError "All Gemini models failed" acc), [])
  | m :: ms, acc =>
      match http t m b with
      | HttpResult.ok data =>
          let aiText := chatExtract data
          if jsTruthy aiText then (Except.ok aiText, [Event.httpCall t m b])
          else
            let r := geminiLoop http t b ms acc
            (r.1, Event.httpCall t m b :: r.2)
      | HttpResult.fail e =>
          let r := geminiLoop http t b ms (some e)
          (r.1, Event.httpCall t m b :: r.2)

/-- `callGeminiAPI` (`chatController.js`, lines 34-76): acquires one
token (outside any `try`, so the provider's `Authentication failed`
error propagates unwrapped), then runs the candidate loop over the
conversation payload. -/
def callGeminiAPI (authResult : Except String String) (http : HttpFun)
    (models : List String) (conversationHistory : List JsValue) :
    Except ThrownError JsValue × List Event :=
  match getAccessToken authResult with
  | Except.error msg => (Except.error (ThrownError.errMsg msg), [Event.fetchToken])
  | Except.ok accessToken =>
      let r := geminiLoop http accessToken (mkChatRequestBody conversationHistory) models none
      (r.1, Event.fetchToken :: r.2)

/-- The new `{role: "user", parts: [{text: message}]}` turn pushed by the
chat handler. -/
def mkUserTurn (message : JsValue) : JsValue :=
  JsValue.obj [("role", JsValue.str "user"),
               ("parts", JsValue.arr [JsValue.obj [("text", message)]])]

/-- The Conversation Assembler inside the `chat` handler
(`chatController.js`, lines 132-142): start from the supplied history
when it is an array (the `conversationHistory && Array.isArray(...)`
guard), else from the empty list, and push the new user turn. -/
def assembleHistory (conversationHistory message : JsValue) : List JsValue :=
  let geminiHistory : List JsValue :=
    if jsTruthy conversationHistory && jsIsArray conversationHistory
    then jsArrayElems conversationHistory else []
  geminiHistory ++ [mkUserTurn message]

/-- The observable response of the `chat` handler (the nondeterministic
`timestamp` field is outside the model). -/
inductive ChatResponse where
  | badRequest
  | success (sessionId userMessage botResponse : JsValue)
  | failure (errorMessage : String)

/-- `error.message` of a thrown value, echoed by the 500 handler. -/
def thrownMessage : ThrownError → String
  | ThrownError.errMsg m => m
  | ThrownError.axiosErr e => e.message

/-- The `chat` handler (`chatController.js`, lines 115-177): validates
that `sessionId` and `message` are truthy, assembles the history, calls
`callGeminiAPI`, and either echoes the session id, the user message and
the bot response, or maps the thrown error's message to a failure. -/
def chat (authResult : Except String String) (http : HttpFun) (models : List String)
    (sessionId message conversationHistory : JsValue) : ChatResponse × List Event :=
  if !jsTruthy sessionId || !jsTruthy message then (ChatResponse.badRequest, [])
  else
    let geminiHistory := assembleHistory conversationHistory message
    match callGeminiAPI authResult http models geminiHistory with
    | (Except.ok aiText, tr) => (ChatResponse.success sessionId message aiText, tr)
    | (Except.error e, tr) => (ChatResponse.failure (thrownMessage e), tr)

/-- The bot response of a chat outcome, when one was generated. -/
def botResponseOf : ChatResponse → Option JsValue
  | ChatResponse.success _ _ b => some b
  | ChatResponse.badRequest => none
  | ChatResponse.failure _ => none

/-- The error message of a chat outcome, when the call failed. -/
def failureMessageOf : ChatResponse → Option String
  | ChatResponse.failure m => some m
  | ChatResponse.badRequest => none
  | ChatResponse.success _ _ _ => none

/-! ## Helper lemmas about the candidate loops -/

/-- A candidate "fails" in the chat loop when its HTTP call rejects or
when it resolves with a body from which no truthy text is extractable. -/
def chatCandidateFails (http : HttpFun) (t : String) (b : JsValue) (x : String) : Prop :=
  (∃ e, http t x b = HttpResult.fail e)
  ∨ (∃ d, http t x b = HttpResult.ok d ∧ jsTruthy (chatExtract d) = false)

/-- The event emitted by one candidate attempt. -/
def callEvent (t : String) (b : JsValue) (x : String) : Event :=
  Event.httpCall t x b

lemma callEvent_injective (t : String) (b : JsValue) :
    Function.Injective (callEvent t b) := by
  intro x y hxy
  cases hxy
  rfl

lemma vertexLoop_cons_fail (http : HttpFun) (t : String) (b : JsValue)
    (x : String) (ms : List String) (acc : Option ErrInfo) (e : ErrInfo)
    (he : http t x b = HttpResult.fail e) :
    vertexLoop http t b (x :: ms) acc
      = ((vertexLoop http t b ms (some e)).1,
         Event.httpCall t x b :: (vertexLoop http t b ms (some e)).2) := by
  simp [vertexLoop, he]

lemma vertexLoop_cons_ok (http : HttpFun) (t : String) (b : JsValue)
    (x : String) (ms : List String) (acc : Option ErrInfo) (d : JsValue)
    (hd : http t x b = HttpResult.ok d) :
    vertexLoop http t b (x :: ms) acc = (Except.ok d, [Event.httpCall t x b]) := by
  simp [vertexLoop, hd]

lemma geminiLoop_cons_fail (http : HttpFun) (t : String) (b : JsValue)
    (x : String) (ms : List String) (acc : Option ErrInfo) (e : ErrInfo)
    (he : http t x b = HttpResult.fail e) :
    geminiLoop http t b (x :: ms) acc
      = ((geminiLoop http t b ms (some e)).1,
         Event.httpCall t x b :: (geminiLoop http t b ms (some e)).2) := by
  simp [geminiLoop, he]

lemma geminiLoop_cons_absent (http : HttpFun) (t : String) (b : JsValue)
    (x : String) (ms : List String) (acc : Option ErrInfo) (d : JsValue)
    (hd : http t x b = HttpResult.ok d) (habs : jsTruthy (chatExtract d) = false) :
    geminiLoop http t b (x :: ms) acc
      = ((geminiLoop http t b ms acc).1,
         Event.httpCall t x b :: (geminiLoop http t b ms acc).2) := by
  simp [geminiLoop, hd, habs]

lemma geminiLoop_cons_usable (http : HttpFun) (t : String) (b : JsValue)
    (x : String) (ms : List String) (acc : Option ErrInfo) (d : JsValue)
    (hd : http t x b = HttpResult.ok d) (htr : jsTruthy (chatExtract d) = true) :
    geminiLoop http t b (x :: ms) acc
      = (Except.ok (chatExtract d), [Event.httpCall t x b]) := by
  simp [geminiLoop, hd, htr]

lemma vertexLoop_skip (http : HttpFun) (t : String) (b : JsValue) (pre : List String) :
    ∀ (rest : List String) (acc : Option ErrInfo),
      (∀ x ∈ pre, ∃ e, http t x b = HttpResult.fail e) →
      ∃ acc2, vertexLoop http t b (pre ++ rest) acc
        = ((vertexLoop http t b rest acc2).1,
           pre.map (callEvent t b) ++ (vertexLoop http t b rest acc2).2) := by
  induction pre with
  | nil => intro rest acc _; exact ⟨acc, by simp⟩
  | cons x pre ih =>
      intro rest acc hf
      obtain ⟨e, he⟩ := hf x (by simp)
      obtain ⟨acc2, h2⟩ := ih rest (some e) (fun y hy => hf y (by simp [hy]))
      exact ⟨acc2, by simp [vertexLoop, he, h2, callEvent]⟩

lemma geminiLoop_skip (http : HttpFun) (t : String) (b : JsValue) (pre : List String) :
    ∀ (rest : List String) (acc : Option ErrInfo),
      (∀ x ∈ pre, chatCandidateFails http t b x) →
      ∃ acc2, geminiLoop http t b (pre ++ rest) acc
        = ((geminiLoop http t b rest acc2).1,
           pre.map (callEvent t b) ++ (geminiLoop http t b rest acc2).2) := by
  induction pre with
  | nil => intro rest acc _; exact ⟨acc, by simp⟩
  | cons x pre ih =>
      intro rest acc hf
      rcases hf x (by simp) with ⟨e, he⟩ | ⟨d, hd, habs⟩
      · obtain ⟨acc2, h2⟩ := ih rest (some e) (fun y hy => hf y (by simp [hy]))
        exact ⟨acc2, by simp [geminiLoop, he, h2, callEvent]⟩
      · obtain ⟨acc2, h2⟩ := ih rest acc (fun y hy => hf y (by simp [hy]))
        exact ⟨acc2, by simp [geminiLoop, hd, habs, h2, callEvent]⟩

lemma vertexLoop_allfail (http : HttpFun) (t : String) (b : JsValue)
    (models : List String) :
    ∀ (acc : Option ErrInfo) (hne : models ≠ []),
      (∀ x ∈ models, ∃ e, http t x b = HttpResult.fail e) →
      ∃ e, http t (models.getLast hne) b = HttpResult.fail e ∧
        vertexLoop http t b models acc
          = (Except.error (ThrownError.axiosErr e), models.map (callEvent t b)) := by
  induction models with
  | nil => intro acc hne _; exact absurd rfl hne
  | cons x ms ih =>
      intro acc hne hf
      obtain ⟨e, he⟩ := hf x (by simp)
      cases ms with
      | nil =>
          refine ⟨e, ?_, ?_⟩
          · simpa [List.getLast] using he
          · simp [vertexLoop, he, exhaustedError, callEvent]
      | cons y ms2 =>
          obtain ⟨e2, he2, hl⟩ :=
            ih (some e) (by simp) (fun z hz => hf z (by simp [hz]))
          refine ⟨e2, ?_, ?_⟩
          · simpa [List.getLast_cons] using he2
          · rw [vertexLoop_cons_fail http t b x (y :: ms2) acc e he, hl]
            simp [callEvent]

/-- The value of the `lastError` variable after the chat loop has run
over `models`: only rejected HTTP promises update it. -/
def lastHttpFailure (http : HttpFun) (t : String) (b : JsValue) :
    List String → Option ErrInfo → Option ErrInfo
  | [], acc => acc
  | x :: ms, acc =>
      lastHttpFailure http t b ms
        (match http t x b with
         | HttpResult.fail e => some e
         | HttpResult.ok _ => acc)

lemma geminiLoop_allfail (http : HttpFun) (t : String) (b : JsValue)
    (models : List String) :
    ∀ (acc : Option ErrInfo),
      (∀ x ∈ models, chatCandidateFails http t b x) →
      geminiLoop http t b models acc
        = (Except.error (exhaustedError "All Gemini models failed"
             (lastHttpFailure http t b models acc)),
           models.map (callEvent t b)) := by
  induction models with
  | nil => intro acc _; simp [geminiLoop, lastHttpFailure]
  | cons x ms ih =>
      intro acc hf
      rcases hf x (by simp) with ⟨e, he⟩ | ⟨d, hd, habs⟩
      · have h2 := ih (some e) (fun y hy => hf y (by simp [hy]))
        simp [geminiLoop, he, h2, lastHttpFailure, callEvent]
      · have h2 := ih acc (fun y hy => hf y (by simp [hy]))
        simp [geminiLoop, hd, habs, h2, lastHttpFailure, callEvent]

lemma vertexLoop_trace_tokens (http : HttpFun) (t : String) (b : JsValue) :
    ∀ (models : List String) (acc : Option ErrInfo),
      ∀ e ∈ (vertexLoop http t b models acc).2, ∃ m, e = Event.httpCall t m b := by
  intro models
  induction models with
  | nil => intro acc e he; simp [vertexLoop] at he
  | cons x ms ih =>
      intro acc e he
      cases hx : http t x b with
      | ok data =>
          simp [vertexLoop, hx] at he
          exact ⟨x, he⟩
      | fail err =>
          simp [vertexLoop, hx] at he
          rcases he with he | he
          · exact ⟨x, he⟩
          · exact ih (some err) e he

lemma geminiLoop_trace_tokens (http : HttpFun) (t : String) (b : JsValue) :
    ∀ (models : List String) (acc : Option ErrInfo),
      ∀ e ∈ (geminiLoop http t b models acc).2, ∃ m, e = Event.httpCall t m b := by
  intro models
  induction models with
  | nil => intro acc e he; simp [geminiLoop] at he
  | cons x ms ih =>
      intro acc e he
      cases hx : http t x b with
      | ok data =>
          by_cases htr : jsTruthy (chatExtract data) = true
          · simp [geminiLoop, hx, htr] at he
            exact ⟨x, he⟩
          · simp [geminiLoop, hx, htr] at he
            rcases he with he | he
            · exact ⟨x, he⟩
            · exact ih acc e he
      | fail err =>
          simp [geminiLoop, hx] at he
          rcases he with he | he
          · exact ⟨x, he⟩
          · exact ih (some err) e he

/-! ## Claim theorems -/

/-- A well-formed response envelope with text `s`: a candidates array
whose first element carries `content.parts`, the first part holding a
`text` field with the string `s`; `restCands` and `restParts` are the
remaining entries of the two arrays. -/
def wellFormedEnvelope (s : String) (restCands restParts : List JsValue) : JsValue :=
  JsValue.obj [("candidates", JsValue.arr
    (JsValue.obj [("content", JsValue.obj [("parts", JsValue.arr
      (JsValue.obj [("text", JsValue.str s)] :: restParts))])] :: restCands))]

/-- C5 (amended): on a well-formed envelope the Response Extractor
returns exactly the string at `candidates[0].content.parts[0].text`
when that string is non-empty; an empty-string text is coerced to the
absent value `null` by the `|| null` of the source, so the absent value
is *not* distinguished from an empty string. -/
theorem extractAiText_wellFormed (s : String) (restCands restParts : List JsValue) :
    extractAiText (wellFormedEnvelope s restCands restParts)
      = if s = "" then JsValue.null else JsValue.str s := by
  by_cases hs : s = ""
  · subst hs
    simp [wellFormedEnvelope, extractAiText, jsOptField, findField, jsIndex, jsOr, jsTruthy]
  · have hb : (s != "") = true := by simpa using hs
    simp [wellFormedEnvelope, extractAiText, jsOptField, findField, jsIndex, jsOr, jsTruthy,
      hs, hb]

/-- C5 counterexample: on the well-formed envelope whose text is the
empty string, the extractor returns the absent value `null`, not the
empty string — refuting the claim that the extractor returns the text
"including when that string is empty". -/
theorem extractAiText_empty_string_counterexample :
    extractAiText (wellFormedEnvelope "" [] []) = JsValue.null
    ∧ JsValue.null ≠ JsValue.str "" :=
  ⟨rfl, fun h => JsValue.noConfusion h⟩

/-- Whether a field list carries the given key. -/
def hasKey : List (String × JsValue) → String → Bool
  | [], _ => false
  | (k, _) :: rest, key => if k = key then true else hasKey rest key

/-- Whether a response value has the shape the extractor needs: a
candidates array with a first element whose `content.parts` is an array
with a first element that carries a `text` field.  Inputs the claim
calls malformed (missing candidates, empty candidates array, missing
content, missing parts, missing text, non-array types at any layer,
non-object input) all fail this test. -/
def extractShapeOk (r : JsValue) : Bool :=
  match jsOptField r "candidates" with
  | JsValue.arr (c :: _) =>
      match jsOptField (jsOptField c "content") "parts" with
      | JsValue.arr (p :: _) =>
          match p with
          | JsValue.obj fs => hasKey fs "text"
          | _ => false
      | _ => false
  | _ => false

lemma findField_of_hasKey_false (fs : List (String × JsValue)) (key : String)
    (h : hasKey fs key = false) : findField fs key = JsValue.undefined := by
  induction fs with
  | nil => rfl
  | cons kv rest ih =>
      obtain ⟨k, v⟩ := kv
      by_cases hk : k = key
      · simp [hasKey, hk] at h
      · simp [hasKey, hk] at h
        simp [findField, hk, ih h]

lemma jsIndex_cons_zero (x : JsValue) (xs : List JsValue) : jsIndex (x :: xs) 0 = x := rfl

lemma text_ne_length : ("text" : String) ≠ "length" := by decide

/-- C6: on every input whose shape is not the well-formed one (missing
or empty candidates array, missing content, missing parts, missing
text field, non-array types at any layer, or a non-object input), the
Response Extractor returns the absent value `null`.  The function is
total, so it never raises. -/
theorem extractAiText_malformed (r : JsValue) (h : extractShapeOk r = false) :
    extractAiText r = JsValue.null := by
  cases hc : jsOptField r "candidates" with
  | arr cs =>
      cases cs with
      | nil => simp [extractAiText, hc]
      | cons c cs2 =>
          cases hp : jsOptField (jsOptField c "content") "parts" with
          | arr ps =>
              cases ps with
              | nil => simp [extractAiText, hc, hp, jsIndex_cons_zero]
              | cons p ps2 =>
                  have hgoal : extractAiText r
                      = jsOr (jsOptField p "text") JsValue.null := by
                    simp [extractAiText, hc, hp, jsIndex_cons_zero]
                  rw [hgoal]
                  cases p with
                  | obj fs =>
                      have hk : hasKey fs "text" = false := by
                        simpa [extractShapeOk, hc, hp] using h
                      simp [jsOptField, findField_of_hasKey_false fs "text" hk, jsOr, jsTruthy]
                  | null => simp [jsOptField, jsOr, jsTruthy]
                  | undefined => simp [jsOptField, jsOr, jsTruthy]
                  | bool b2 => simp [jsOptField, jsOr, jsTruthy]
                  | num n2 => simp [jsOptField, jsOr, jsTruthy]
                  | str s2 => simp [jsOptField, jsOr, jsTruthy, text_ne_length]
                  | arr xs2 => simp [jsOptField, jsOr, jsTruthy, text_ne_length]
          | null => simp [extractAiText, hc, hp, jsIndex_cons_zero]
          | undefined => simp [extractAiText, hc, hp, jsIndex_cons_zero]
          | bool b2 => simp [extractAiText, hc, hp, jsIndex_cons_zero]
          | num n2 => simp [extractAiText, hc, hp, jsIndex_cons_zero]
          | str s2 => simp [extractAiText, hc, hp, jsIndex_cons_zero]
          | obj fs2 => simp [extractAiText, hc, hp, jsIndex_cons_zero]
  | null => simp [extractAiText, hc]
  | undefined => simp [extractAiText, hc]
  | bool b2 => simp [extractAiText, hc]
  | num n2 => simp [extractAiText, hc]
  | str s2 => simp [extractAiText, hc]
  | obj fs2 => simp [extractAiText, hc]

/-- C6 witness: the extractor applied to a malformed input (`null`). -/
theorem extractAiText_malformed_witness :
    extractShapeOk JsValue.null = false
    ∧ extractAiText JsValue.null = JsValue.null :=
  ⟨rfl, extractAiText_malformed JsValue.null rfl⟩

/-- C7: the Conversation Assembler appends exactly one `"user"` turn
holding the new message to the supplied history, preserving its order;
a non-array (hence also an absent) history yields the single new turn;
and the output always ends with the new user turn. -/
theorem assembleHistory_appends_user_turn (hist : List JsValue) (message ch : JsValue)
    (hna : jsIsArray ch = false) :
    assembleHistory (JsValue.arr hist) message = hist ++ [mkUserTurn message]
    ∧ assembleHistory ch message = [mkUserTurn message]
    ∧ ∀ h2 : JsValue, (assembleHistory h2 message).getLast? = some (mkUserTurn message) := by
  refine ⟨?_, ?_, ?_⟩
  · simp [assembleHistory, jsTruthy, jsIsArray, jsArrayElems]
  · simp [assembleHistory, hna]
  · intro h2
    unfold assembleHistory
    exact List.getLast?_concat _

/-- C7 witness: a two-turn history and a fresh message; the non-array
case instantiated at `undefined`. -/
theorem assembleHistory_appends_user_turn_witness :
    assembleHistory (JsValue.arr [JsValue.str "turn1", JsValue.str "turn2"]) (JsValue.str "m")
      = [JsValue.str "turn1", JsValue.str "turn2", mkUserTurn (JsValue.str "m")]
    ∧ assembleHistory JsValue.undefined (JsValue.str "m") = [mkUserTurn (JsValue.str "m")]
    ∧ (assembleHistory JsValue.undefined (JsValue.str "m")).getLast?
        = some (mkUserTurn (JsValue.str "m")) := by
  have h := assembleHistory_appends_user_turn
    [JsValue.str "turn1", JsValue.str "turn2"] (JsValue.str "m") JsValue.undefined rfl
  exact ⟨by simpa using h.1, h.2.1, h.2.2 JsValue.undefined⟩

/-- C2: when token acquisition fails (the identity provider rejects
with message `msg`), both invocation paths abort with an authentication
error — the recommendation path rewrapping it as
`Failed to authenticate with Google Cloud: ...`, the chat path
propagating `Authentication failed: ...` — and the trace contains the
credential-fetch attempt only: zero outbound HTTP calls are issued. -/
theorem auth_failure_zero_calls (msg : String) (http : HttpFun)
    (models models2 : List String) (prompt : String) (histList : List JsValue) :
    generateWithVertexAI (Except.error msg) http models prompt
      = (Except.error (ThrownError.errMsg
          ("Failed to authenticate with Google Cloud: " ++ ("Authentication failed: " ++ msg))),
         [Event.fetchToken])
    ∧ callGeminiAPI (Except.error msg) http models2 histList
      = (Except.error (ThrownError.errMsg ("Authentication failed: " ++ msg)),
         [Event.fetchToken])
    ∧ List.countP isHttpCallEvent [Event.fetchToken] = 0 := by
  refine ⟨?_, ?_, ?_⟩
  · simp [generateWithVertexAI, getAccessToken]
  · simp [callGeminiAPI, getAccessToken]
  · simp [isHttpCallEvent]

/-- C8: in every invocation of either path with a successfully fetched
token `t`, the trace contains exactly one credential fetch, and every
outbound HTTP call in the trace carries that same token `t` (the single
token is reused across all candidate attempts; no cache outlives the
invocation, since each invocation's trace holds its own fetch). -/
theorem one_fetch_single_token (t : String) (http : HttpFun)
    (models models2 : List String) (prompt : String) (histList : List JsValue) :
    (generateWithVertexAI (Except.ok t) http models prompt).2.countP isFetchEvent = 1
    ∧ (generateWithVertexAI (Except.ok t) http models prompt).2.countP
        (fun e => isHttpCallEvent e && !eventUsesToken t e) = 0
    ∧ (callGeminiAPI (Except.ok t) http models2 histList).2.countP isFetchEvent = 1
    ∧ (callGeminiAPI (Except.ok t) http models2 histList).2.countP
        (fun e => isHttpCallEvent e && !eventUsesToken t e) = 0 := by
  have hv := vertexLoop_trace_tokens http t (mkRecRequestBody prompt) models none
  have hg := geminiLoop_trace_tokens http t (mkChatRequestBody histList) models2 none
  have hvf : (vertexLoop http t (mkRecRequestBody prompt) models none).2.countP isFetchEvent = 0 := by
    refine List.countP_eq_zero.mpr ?_
    intro e he
    obtain ⟨m, rfl⟩ := hv e he
    simp [isFetchEvent]
  have hgf : (geminiLoop http t (mkChatRequestBody histList) models2 none).2.countP isFetchEvent = 0 := by
    refine List.countP_eq_zero.mpr ?_
    intro e he
    obtain ⟨m, rfl⟩ := hg e he
    simp [isFetchEvent]
  have hvt : (vertexLoop http t (mkRecRequestBody prompt) models none).2.countP
      (fun e => isHttpCallEvent e && !eventUsesToken t e) = 0 := by
    refine List.countP_eq_zero.mpr ?_
    intro e he
    obtain ⟨m, rfl⟩ := hv e he
    simp [isHttpCallEvent, eventUsesToken]
  have hgt : (geminiLoop http t (mkChatRequestBody histList) models2 none).2.countP
      (fun e => isHttpCallEvent e && !eventUsesToken t e) = 0 := by
    refine List.countP_eq_zero.mpr ?_
    intro e he
    obtain ⟨m, rfl⟩ := hg e he
    simp [isHttpCallEvent, eventUsesToken]
  have hvtr : (generateWithVertexAI (Except.ok t) http models prompt).2
      = Event.fetchToken :: (vertexLoop http t (mkRecRequestBody prompt) models none).2 := rfl
  have hgtr : (callGeminiAPI (Except.ok t) http models2 histList).2
      = Event.fetchToken :: (geminiLoop http t (mkChatRequestBody histList) models2 none).2 := rfl
  refine ⟨?_, ?_, ?_, ?_⟩
  · rw [hvtr, List.countP_cons_of_pos _ _ (by simp [isFetchEvent]), hvf]
  · rw [hvtr, List.countP_cons_of_neg _ _ (by simp [isHttpCallEvent]), hvt]
  · rw [hgtr, List.countP_cons_of_pos _ _ (by simp [isFetchEvent]), hgf]
  · rw [hgtr, List.countP_cons_of_neg _ _ (by simp [isHttpCallEvent]), hgt]

/-- C9: two chat requests that agree on the message and the
conversation history but carry different (present) session identifiers
produce the identical bot response, the identical failure message when
the upstream call fails, and the identical outbound traffic: the
session id is not used for generation or history lookup, and its only
role in the output is being echoed back. -/
theorem sessionId_no_influence (authResult : Except String String) (http : HttpFun)
    (models : List String) (sid1 sid2 message ch : JsValue)
    (h1 : jsTruthy sid1 = true) (h2 : jsTruthy sid2 = true) :
    botResponseOf (chat authResult http models sid1 message ch).1
      = botResponseOf (chat authResult http models sid2 message ch).1
    ∧ failureMessageOf (chat authResult http models sid1 message ch).1
      = failureMessageOf (chat authResult http models sid2 message ch).1
    ∧ (chat authResult http models sid1 message ch).2
      = (chat authResult http models sid2 message ch).2 := by
  by_cases hm : jsTruthy message = true
  · have hb : ∀ sid : JsValue, jsTruthy sid = true →
        chat authResult http models sid message ch
          = (match callGeminiAPI authResult http models (assembleHistory ch message) with
             | (Except.ok aiText, tr) => (ChatResponse.success sid message aiText, tr)
             | (Except.error e, tr) => (ChatResponse.failure (thrownMessage e), tr)) := by
      intro sid hs
      simp [chat, hs, hm]
    rw [hb sid1 h1, hb sid2 h2]
    rcases callGeminiAPI authResult http models (assembleHistory ch message) with ⟨r, tr⟩
    cases r <;> simp [botResponseOf, failureMessageOf]
  · have hm2 : jsTruthy message = false := by simpa using hm
    simp [chat, h1, h2, hm2, botResponseOf, failureMessageOf]

/-- C10: a present but non-array `conversationHistory` (string, number,
object, ...) is treated exactly as an empty history: the assembled
sequence is the single new user turn, the whole chat behaviour equals
the empty-history behaviour, and the request is not rejected. -/
theorem malformed_history_treated_empty (authResult : Except String String) (http : HttpFun)
    (models : List String) (sid message ch : JsValue)
    (hna : jsIsArray ch = false) (hsid : jsTruthy sid = true) (hmsg : jsTruthy message = true) :
    assembleHistory ch message = [mkUserTurn message]
    ∧ chat authResult http models sid message ch
        = chat authResult http models sid message (JsValue.arr [])
    ∧ (chat authResult http models sid message ch).1 ≠ ChatResponse.badRequest := by
  have ha : assembleHistory ch message = [mkUserTurn message] := by
    simp [assembleHistory, hna]
  have ha2 : assembleHistory (JsValue.arr []) message = [mkUserTurn message] := by
    simp [assembleHistory, jsTruthy, jsIsArray, jsArrayElems]
  have hchat : ∀ hist : JsValue, assembleHistory hist message = [mkUserTurn message] →
      chat authResult http models sid message hist
        = (match callGeminiAPI authResult http models [mkUserTurn message] with
           | (Except.ok aiText, tr) => (ChatResponse.success sid message aiText, tr)
           | (Except.error e, tr) => (ChatResponse.failure (thrownMessage e), tr)) := by
    intro hist hh
    simp [chat, hsid, hmsg, hh]
  refine ⟨ha, by rw [hchat ch ha, hchat (JsValue.arr []) ha2], ?_⟩
  rw [hchat ch ha]
  rcases callGeminiAPI authResult http models [mkUserTurn message] with ⟨r, tr⟩
  cases r <;> simp

/-! ## Concrete fixtures for witnesses and counterexamples -/

/-- A response envelope with the usable text `Drink water.`. -/
def goodEnvelope : JsValue := wellFormedEnvelope "Drink water." [] []

/-- A 2xx response body with an empty candidates array: absent content. -/
def emptyEnvelope : JsValue := JsValue.obj [("candidates", JsValue.arr [])]

/-- A rate-limit failure. -/
def quotaErr : ErrInfo := { status := some 429, message := "quota exceeded" }

/-- A server-side failure. -/
def crashErr : ErrInfo := { status := some 500, message := "model A exploded" }

/-- Candidate `A` is rate-limited; every other candidate succeeds with
usable text. -/
def httpQuotaThenGood : HttpFun := fun _ m _ =>
  if m = "A" then HttpResult.fail quotaErr else HttpResult.ok goodEnvelope

/-- Candidate `A` throws; every other candidate returns 2xx with an
empty candidates array (absent content). -/
def httpFailThenAbsent : HttpFun := fun _ m _ =>
  if m = "A" then HttpResult.fail crashErr else HttpResult.ok emptyEnvelope

/-- Candidate `A` returns 2xx with absent content; every other
candidate returns 2xx with usable text. -/
def httpAbsentThenGood : HttpFun := fun _ m _ =>
  if m = "A" then HttpResult.ok emptyEnvelope else HttpResult.ok goodEnvelope

/-- Candidate `A` crashes, every other candidate is rate-limited. -/
def httpAllFail : HttpFun := fun _ m _ =>
  if m = "A" then HttpResult.fail crashErr else HttpResult.fail quotaErr

/-- C1 counterexample: recommendation path, candidates `A` and `B`,
`k = 2`: candidate `A` fails in the claim's sense (2xx with
absent-content extraction), candidate `B` succeeds with usable text —
yet the invoker issues only one outbound call (candidate `B` is never
attempted) and returns `A`'s unusable envelope rather than candidate
`B`'s extracted text, refuting the claim as stated. -/
theorem fallback_first_success_counterexample :
    generateWithVertexAI (Except.ok "tk") httpAbsentThenGood ["A", "B"] "p"
      = (Except.ok emptyEnvelope,
         [Event.fetchToken, Event.httpCall "tk" "A" (mkRecRequestBody "p")])
    ∧ httpAbsentThenGood "tk" "A" (mkRecRequestBody "p") = HttpResult.ok emptyEnvelope
    ∧ jsTruthy (extractAiText emptyEnvelope) = false
    ∧ httpAbsentThenGood "tk" "B" (mkRecRequestBody "p") = HttpResult.ok goodEnvelope
    ∧ jsTruthy (extractAiText goodEnvelope) = true
    ∧ extractAiText emptyEnvelope ≠ extractAiText goodEnvelope :=
  ⟨rfl, rfl, rfl, rfl, rfl, fun h => JsValue.noConfusion h⟩

/-- C1 (amended): when candidates `1..k-1` fail and candidate `k`
succeeds with usable text (`pre` holds the failing candidates, `m` is
candidate `k`), both invokers issue exactly `k` outbound calls, one per
candidate in list order, return candidate `k`'s result (the
recommendation invoker returns its raw envelope `d`, whose extraction
`extractAiText d` is the usable text the handler then reads; the chat
invoker returns the extracted text itself), no candidate after `k` is
attempted, and — for a duplicate-free configured list — no candidate is
attempted twice on either path.  On the chat path a failing candidate
is one whose HTTP call rejects *or* whose 2xx response has no
extractable content, the claim's full failure notion; on the
recommendation path the property holds only when the failing
candidates' HTTP calls reject — a 2xx response with absent content
instead terminates that loop at the failing candidate (see the
counterexample), so there "fails" must be read as HTTP failure. -/
theorem fallback_first_success
    (t : String) (http : HttpFun) (prompt : String) (histList : List JsValue)
    (pre suf : List String) (m : String) (d dChat : JsValue)
    (hfailRec : ∀ x ∈ pre, ∃ e, http t x (mkRecRequestBody prompt) = HttpResult.fail e)
    (hokRec : http t m (mkRecRequestBody prompt) = HttpResult.ok d)
    (husableRec : jsTruthy (extractAiText d) = true)
    (hfailChat : ∀ x ∈ pre, chatCandidateFails http t (mkChatRequestBody histList) x)
    (hokChat : http t m (mkChatRequestBody histList) = HttpResult.ok dChat)
    (husableChat : jsTruthy (chatExtract dChat) = true) :
    generateWithVertexAI (Except.ok t) http (pre ++ m :: suf) prompt
      = (Except.ok d, Event.fetchToken ::
          (pre ++ [m]).map (callEvent t (mkRecRequestBody prompt)))
    ∧ callGeminiAPI (Except.ok t) http (pre ++ m :: suf) histList
      = (Except.ok (chatExtract dChat), Event.fetchToken ::
          (pre ++ [m]).map (callEvent t (mkChatRequestBody histList)))
    ∧ ((pre ++ m :: suf).Nodup →
        ((pre ++ [m]).map (callEvent t (mkRecRequestBody prompt))).Nodup
        ∧ ((pre ++ [m]).map (callEvent t (mkChatRequestBody histList))).Nodup) := by
  obtain ⟨acc2, hskip⟩ :=
    vertexLoop_skip http t (mkRecRequestBody prompt) pre (m :: suf) none hfailRec
  have hstep := vertexLoop_cons_ok http t (mkRecRequestBody prompt) m suf acc2 d hokRec
  obtain ⟨acc3, gskip⟩ :=
    geminiLoop_skip http t (mkChatRequestBody histList) pre (m :: suf) none hfailChat
  have gstep :=
    geminiLoop_cons_usable http t (mkChatRequestBody histList) m suf acc3 dChat hokChat husableChat
  refine ⟨?_, ?_, ?_⟩
  · have hu : generateWithVertexAI (Except.ok t) http (pre ++ m :: suf) prompt
        = ((vertexLoop http t (mkRecRequestBody prompt) (pre ++ m :: suf) none).1,
           Event.fetchToken ::
             (vertexLoop http t (mkRecRequestBody prompt) (pre ++ m :: suf) none).2) := rfl
    rw [hu, hskip, hstep]
    simp [callEvent]
  · have hu : callGeminiAPI (Except.ok t) http (pre ++ m :: suf) histList
        = ((geminiLoop http t (mkChatRequestBody histList) (pre ++ m :: suf) none).1,
           Event.fetchToken ::
             (geminiLoop http t (mkChatRequestBody histList) (pre ++ m :: suf) none).2) := rfl
    rw [hu, gskip, gstep]
    simp [callEvent]
  · intro hnd
    have hsub : (pre ++ [m]).Sublist (pre ++ m :: suf) :=
      (List.cons_sublist_cons.mpr (List.nil_sublist suf)).append_left pre
    exact ⟨(hnd.sublist hsub).map (callEvent_injective t (mkRecRequestBody prompt)),
           (hnd.sublist hsub).map (callEvent_injective t (mkChatRequestBody histList))⟩

/-- C1 witness: three candidates, `A` rate-limited, `B` succeeding with
usable text, `C` untried: two calls, in order, result from `B`. -/
theorem fallback_first_success_witness :
    generateWithVertexAI (Except.ok "tk") httpQuotaThenGood ["A", "B", "C"] "p"
      = (Except.ok goodEnvelope,
         [Event.fetchToken,
          Event.httpCall "tk" "A" (mkRecRequestBody "p"),
          Event.httpCall "tk" "B" (mkRecRequestBody "p")])
    ∧ callGeminiAPI (Except.ok "tk") httpQuotaThenGood ["A", "B", "C"] []
      = (Except.ok (JsValue.str "Drink water."),
         [Event.fetchToken,
          Event.httpCall "tk" "A" (mkChatRequestBody []),
          Event.httpCall "tk" "B" (mkChatRequestBody [])]) := by
  have h := fallback_first_success "tk" httpQuotaThenGood "p" [] ["A"] ["C"] "B"
    goodEnvelope goodEnvelope
    (by intro x hx; rw [List.mem_singleton] at hx; subst hx; exact ⟨quotaErr, rfl⟩)
    rfl rfl
    (by intro x hx; rw [List.mem_singleton] at hx; subst hx
        exact Or.inl ⟨quotaErr, rfl⟩)
    rfl rfl
  exact ⟨h.1.trans rfl, h.2.1.trans rfl⟩

/-- C3 counterexample: chat path, candidates `A` and `B`; `A`'s HTTP
call throws with `crashErr`, `B` (the last attempted candidate) returns
2xx with absent content, so every candidate fails — yet the error
carried to the caller is `A`'s failure detail, the *first* candidate's,
not the last attempted candidate's, refuting the claim. -/
theorem last_error_counterexample :
    callGeminiAPI (Except.ok "tk") httpFailThenAbsent ["A", "B"] []
      = (Except.error (ThrownError.axiosErr crashErr),
         [Event.fetchToken,
          Event.httpCall "tk" "A" (mkChatRequestBody []),
          Event.httpCall "tk" "B" (mkChatRequestBody [])])
    ∧ httpFailThenAbsent "tk" "A" (mkChatRequestBody []) = HttpResult.fail crashErr
    ∧ httpFailThenAbsent "tk" "B" (mkChatRequestBody []) = HttpResult.ok emptyEnvelope
    ∧ jsTruthy (chatExtract emptyEnvelope) = false :=
  ⟨rfl, rfl, rfl, rfl⟩

/-- C3 (amended): when every candidate fails, the thrown error carries
the most recent failure of an HTTP call (the `lastError` variable);
absent-content candidates do not update it.  On the recommendation
path every failure is an HTTP failure, so the payload is exactly the
last attempted candidate's failure detail; on the chat path it is the
last candidate whose HTTP call rejected (a generic all-models-failed
error when none did).  Earlier failures are not returned. -/
theorem all_candidates_fail_last_error
    (t : String) (http : HttpFun) (prompt : String) (histList : List JsValue)
    (models : List String) (hne : models ≠ [])
    (hfR : ∀ x ∈ models, ∃ e, http t x (mkRecRequestBody prompt) = HttpResult.fail e)
    (hfC : ∀ x ∈ models, chatCandidateFails http t (mkChatRequestBody histList) x) :
    (∃ e, http t (models.getLast hne) (mkRecRequestBody prompt) = HttpResult.fail e ∧
      generateWithVertexAI (Except.ok t) http models prompt
        = (Except.error (ThrownError.axiosErr e),
           Event.fetchToken :: models.map (callEvent t (mkRecRequestBody prompt))))
    ∧ callGeminiAPI (Except.ok t) http models histList
        = (Except.error (exhaustedError "All Gemini models failed"
            (lastHttpFailure http t (mkChatRequestBody histList) models none)),
           Event.fetchToken :: models.map (callEvent t (mkChatRequestBody histList))) := by
  constructor
  · obtain ⟨e, he, hl⟩ := vertexLoop_allfail http t (mkRecRequestBody prompt) models none hne hfR
    refine ⟨e, he, ?_⟩
    have hu : generateWithVertexAI (Except.ok t) http models prompt
        = ((vertexLoop http t (mkRecRequestBody prompt) models none).1,
           Event.fetchToken :: (vertexLoop http t (mkRecRequestBody prompt) models none).2) := rfl
    rw [hu, hl]
  · have hl := geminiLoop_allfail http t (mkChatRequestBody histList) models none hfC
    have hu : callGeminiAPI (Except.ok t) http models histList
        = ((geminiLoop http t (mkChatRequestBody histList) models none).1,
           Event.fetchToken :: (geminiLoop http t (mkChatRequestBody histList) models none).2) := rfl
    rw [hu, hl]

/-- C3 (amended) witness: candidates `A` (crash) and `B` (rate-limit),
all failing over HTTP: both paths surface `B`'s failure, the last. -/
theorem all_candidates_fail_last_error_witness :
    generateWithVertexAI (Except.ok "tk") httpAllFail ["A", "B"] "p"
      = (Except.error (ThrownError.axiosErr quotaErr),
         [Event.fetchToken,
          Event.httpCall "tk" "A" (mkRecRequestBody "p"),
          Event.httpCall "tk" "B" (mkRecRequestBody "p")])
    ∧ callGeminiAPI (Except.ok "tk") httpAllFail ["A", "B"] []
      = (Except.error (ThrownError.axiosErr quotaErr),
         [Event.fetchToken,
          Event.httpCall "tk" "A" (mkChatRequestBody []),
          Event.httpCall "tk" "B" (mkChatRequestBody [])]) := by
  have h := all_candidates_fail_last_error "tk" httpAllFail "p" [] ["A", "B"]
    (by simp)
    (by intro x hx
        rcases List.mem_cons.mp hx with hx1 | hx1
        · subst hx1; exact ⟨crashErr, rfl⟩
        · rw [List.mem_singleton] at hx1; subst hx1; exact ⟨quotaErr, rfl⟩)
    (by intro x hx
        rcases List.mem_cons.mp hx with hx1 | hx1
        · subst hx1; exact Or.inl ⟨crashErr, rfl⟩
        · rw [List.mem_singleton] at hx1; subst hx1; exact Or.inl ⟨quotaErr, rfl⟩)
  obtain ⟨⟨e, he, h1⟩, h2⟩ := h
  have hee : HttpResult.fail quotaErr = HttpResult.fail e := by
    exact (show httpAllFail "tk" (["A", "B"].getLast (by simp)) (mkRecRequestBody "p")
        = HttpResult.fail quotaErr from rfl).symm.trans he
  injection hee with heq
  subst heq
  exact ⟨h1.trans rfl, h2.trans rfl⟩

/-- C4 counterexample: recommendation path, candidates `A` and `B`;
`A` returns 2xx whose envelope has no extractable content, `B` would
succeed with usable text — yet the invoker stops at `A` after a single
call and returns `A`'s unusable envelope instead of recording the
absent-content outcome and continuing to `B`, refuting the claim. -/
theorem absent_content_counterexample :
    generateWithVertexAI (Except.ok "tk") httpAbsentThenGood ["A", "B"] "p"
      = (Except.ok emptyEnvelope,
         [Event.fetchToken, Event.httpCall "tk" "A" (mkRecRequestBody "p")])
    ∧ jsTruthy (extractAiText emptyEnvelope) = false
    ∧ httpAbsentThenGood "tk" "B" (mkRecRequestBody "p") = HttpResult.ok goodEnvelope
    ∧ jsTruthy (extractAiText goodEnvelope) = true :=
  ⟨rfl, rfl, rfl, rfl⟩

/-- C4 (amended): a 2xx response with absent content is handled
asymmetrically.  The chat loop falls through to the next candidate but
does *not* record the outcome as the current last error (the
accumulator is unchanged); the recommendation loop does not fall
through at all — any 2xx response ends it immediately with the raw
envelope, and absent content is detected only by the caller, failing
the whole call at that candidate. -/
theorem absent_content_divergence
    (t : String) (b : JsValue) (http : HttpFun) (m : String) (ms : List String)
    (acc : Option ErrInfo) (d : JsValue)
    (hok : http t m b = HttpResult.ok d) (habs : jsTruthy (chatExtract d) = false) :
    geminiLoop http t b (m :: ms) acc
      = ((geminiLoop http t b ms acc).1,
         Event.httpCall t m b :: (geminiLoop http t b ms acc).2)
    ∧ vertexLoop http t b (m :: ms) acc = (Except.ok d, [Event.httpCall t m b]) :=
  ⟨geminiLoop_cons_absent http t b m ms acc d hok habs,
   vertexLoop_cons_ok http t b m ms acc d hok⟩

/-- C4 (amended) witness: candidate `A` returns 2xx with an empty
candidates array; the chat loop continues past it with the accumulator
unchanged while the recommendation loop returns the envelope. -/
theorem absent_content_divergence_witness :
    geminiLoop httpAbsentThenGood "tk" (mkRecRequestBody "p") ["A", "B"] none
      = ((geminiLoop httpAbsentThenGood "tk" (mkRecRequestBody "p") ["B"] none).1,
         Event.httpCall "tk" "A" (mkRecRequestBody "p")
           :: (geminiLoop httpAbsentThenGood "tk" (mkRecRequestBody "p") ["B"] none).2)
    ∧ vertexLoop httpAbsentThenGood "tk" (mkRecRequestBody "p") ["A", "B"] none
      = (Except.ok emptyEnvelope, [Event.httpCall "tk" "A" (mkRecRequestBody "p")]) :=
  absent_content_divergence "tk" (mkRecRequestBody "p") httpAbsentThenGood "A" ["B"] none
    emptyEnvelope rfl rfl

/-- C9 witness: two session identifiers over the same message and
history give the same bot response, failure message and traffic. -/
theorem sessionId_no_influence_witness :
    botResponseOf (chat (Except.ok "tk") httpQuotaThenGood ["A"] (JsValue.str "s1")
        (JsValue.str "hi") JsValue.undefined).1
      = botResponseOf (chat (Except.ok "tk") httpQuotaThenGood ["A"] (JsValue.str "s2")
        (JsValue.str "hi") JsValue.undefined).1
    ∧ failureMessageOf (chat (Except.ok "tk") httpQuotaThenGood ["A"] (JsValue.str "s1")
        (JsValue.str "hi") JsValue.undefined).1
      = failureMessageOf (chat (Except.ok "tk") httpQuotaThenGood ["A"] (JsValue.str "s2")
        (JsValue.str "hi") JsValue.undefined).1
    ∧ (chat (Except.ok "tk") httpQuotaThenGood ["A"] (JsValue.str "s1")
        (JsValue.str "hi") JsValue.undefined).2
      = (chat (Except.ok "tk") httpQuotaThenGood ["A"] (JsValue.str "s2")
        (JsValue.str "hi") JsValue.undefined).2 :=
  sessionId_no_influence (Except.ok "tk") httpQuotaThenGood ["A"]
    (JsValue.str "s1") (JsValue.str "s2") (JsValue.str "hi") JsValue.undefined rfl rfl

/-- C10 witness: a string-valued `conversationHistory` behaves exactly
like an empty history and the request is not rejected. -/
theorem malformed_history_treated_empty_witness :
    assembleHistory (JsValue.str "junk") (JsValue.str "hi")
      = [mkUserTurn (JsValue.str "hi")]
    ∧ chat (Except.ok "tk") httpQuotaThenGood ["A"] (JsValue.str "s")
        (JsValue.str "hi") (JsValue.str "junk")
      = chat (Except.ok "tk") httpQuotaThenGood ["A"] (JsValue.str "s")
        (JsValue.str "hi") (JsValue.arr [])
    ∧ (chat (Except.ok "tk") httpQuotaThenGood ["A"] (JsValue.str "s")
        (JsValue.str "hi") (JsValue.str "junk")).1 ≠ ChatResponse.badRequest :=
  malformed_history_treated_empty (Except.ok "tk") httpQuotaThenGood ["A"]
    (JsValue.str "s") (JsValue.str "hi") (JsValue.str "junk") rfl rfl rfl

end PS5
